import Mathlib

/-!
Shallow embedding of the cspy bidirectional labelling solver
(`src/cc/bidirectional.cc`, `src/cc/labelling.cc`, `src/cc/digraph.cc`,
`src/cc/ref_callback.*`, `src/cc/preprocessing.cc`) and proofs about the
behaviour of its operations.

Modelling conventions:
* C++ `double` is modelled by `ℤ`.  Every operation the engine performs
  on weight/resource values is addition, subtraction, min/max, absolute
  value and order comparison — never multiplication or division — so the
  development is faithful over any linearly ordered additive model; `ℤ`
  is chosen so that concrete runs are computable by the kernel.  A
  `double` that can be NaN (`phi`, `time_limit`, `threshold`,
  `primal_st_bound_`) is modelled by `Option ℤ` with `none` playing the
  role of NaN, and every comparison against `none` is false, as for
  NaN.
* `std::vector` is modelled by `List`, indexed reads by `List.getD` and
  indexed writes by `List.set` (out-of-range access in the C++ source is
  undefined behaviour; theorems carry the length hypotheses actually
  maintained by the engine).
* The repository snapshot contains several historical revisions of the
  same files; the definitions below follow the revision of
  `bidirectional.cc` / `labelling.cc` / `digraph.cc` that the newest code
  compiles against.  A few small helpers whose current bodies are absent
  from the snapshot (only their declarations or callers remain) are
  modelled from the specification and marked `Modelled from the spec:` in
  their doc comments.
-/

namespace Cspy

/-- Search directions, from the `Directions` enum in `params.h`. -/
inductive Dir where
  | FWD
  | BWD
  | BOTH
  | NODIR
deriving DecidableEq, Repr

/-- A graph vertex: LEMON internal id and user-facing id (`digraph.h`). -/
structure Vertex where
  lemon_id : Int
  user_id : Int
deriving DecidableEq, Repr

/-- The dummy vertex `{-1, -1}` used as a sentinel throughout the engine. -/
def Vertex.dummy : Vertex := ⟨-1, -1⟩

/-- Adjacent-vertex record for one arc (`digraph.h`): the head (forward) or
tail (backward) vertex, the arc weight, the arc resource consumption, and
the initialisation flag (false only for the default-constructed record). -/
structure AdjVertex where
  vertex : Vertex
  weight : ℤ
  resource_consumption : List ℤ
  init : Bool
deriving Repr

/-- User-supplied resource extension functions (`ref_callback.h`):
`REF_fwd`, `REF_bwd` and `REF_join`. -/
structure REFCallback where
  ref_fwd : List ℤ → Int → Int → List ℤ → List Int → ℤ → List ℤ
  ref_bwd : List ℤ → Int → Int → List ℤ → List Int → ℤ → List ℤ
  ref_join : List ℤ → List ℤ → Int → Int → List ℤ → List ℤ

/-- Solver parameters (`params.h`).  `time_exceeded` models the result of
the wall-clock comparison `getElapsedTime() >= time_limit`, which is only
consulted when `time_limit` is set (it is NaN — `none` — by default). -/
structure Params where
  direction : Dir := Dir.BOTH
  method : String := "unprocessed"
  time_limit : Option ℤ := none
  time_exceeded : Bool := false
  threshold : Option ℤ := none
  elementary : Bool := false
  bounds_pruning : Bool := false
  find_critical_res : Bool := false
  critical_res : Nat := 0
  ref_callback : Option REFCallback := none

/-- A label (`labelling.h` / `labelling.cc`): accumulated weight, current
endpoint, accumulated resources, partial path, the unreachable-node marks
used in elementary mode, and the `phi` value of merged labels (NaN — here
`none` — until `setPhi` is called). -/
structure Label where
  weight : ℤ := 0
  vertex : Vertex := Vertex.dummy
  resource_consumption : List ℤ := []
  partial_path : List Vertex := []
  unreachable_nodes_size : Int := 0
  unreachable_nodes : List Int := []
  phi : Option ℤ := none
deriving DecidableEq, Repr

/-- The default-constructed (dummy) label `Label()`. -/
def Label.empty : Label := {}

instance : Inhabited Label := ⟨Label.empty⟩

/-- The label constructor of `labelling.cc` (lines 14-36): when elementary
mode is on and a positive unreachable size is given, the unreachable marks
are allocated, the last entry receives the partial-path length, and every
path vertex's entry (indexed by LEMON id) is set to 1. -/
def makeLabel (p : Params) (w : ℤ) (v : Vertex) (res : List ℤ)
    (path : List Vertex) (size_unreachable : Int) : Label :=
  let unreach : List Int :=
    if p.elementary ∧ 0 < size_unreachable then
      let base : List Int := List.replicate size_unreachable.toNat 0
      let base := base.set (size_unreachable.toNat - 1) (path.length : Int)
      path.foldl (fun acc u => acc.set u.lemon_id.toNat 1) base
    else []
  { weight := w, vertex := v, resource_consumption := res,
    partial_path := path, unreachable_nodes_size := size_unreachable,
    unreachable_nodes := unreach, phi := none }

/-- The label constructor overload that also sets `phi`
(`labelling.cc` lines 38-54). -/
def makeLabelPhi (p : Params) (w : ℤ) (v : Vertex) (res : List ℤ)
    (path : List Vertex) (size_unreachable : Int) (phi : ℤ) : Label :=
  { makeLabel p w v res path size_unreachable with phi := some phi }

/-- `convertToInt` (declared in `bidirectional.h`): the user ids of a
vertex path, as handed to user REF callbacks.
Modelled from the spec: the body is absent from the snapshot; the partial
path exposed to REFs is the ordered sequence of user vertex ids (§4.2). -/
def convertToInt (path : List Vertex) : List Int :=
  path.map Vertex.user_id

/-- `additiveForwardREF` (`ref_callback.cc`): componentwise addition of the
arc consumption onto the cumulative resource vector. -/
def additiveForwardREF (cumulative_resource edge_resource_consumption : List ℤ) :
    List ℤ :=
  List.zipWith (· + ·) cumulative_resource edge_resource_consumption

/-- Modelled from the spec: the current revision of `additiveBackwardREF`
taking the critical resource index, declared in `ref_callback.h`; the
snapshot carries only an older body hard-coded to index 0.  Per §6.1 of
the spec it adds componentwise everywhere except the critical coordinate,
which becomes `res[c] - arc_res[c]` when `arc_res[c] > 0` and
`res[c] - 1` otherwise. -/
def additiveBackwardREF (cumulative_resource edge_resource_consumption : List ℤ)
    (critical_res : Nat) : List ℤ :=
  let new_resources :=
    List.zipWith (· + ·) cumulative_resource edge_resource_consumption
  if 0 < edge_resource_consumption.getD critical_res 0 then
    new_resources.set critical_res
      (cumulative_resource.getD critical_res 0 -
        edge_resource_consumption.getD critical_res 0)
  else
    new_resources.set critical_res
      (cumulative_resource.getD critical_res 0 - 1)

/-- `Label::checkFeasibility` (`labelling.cc` lines 140-170): every
coordinate must respect its upper bound; the lower bound is checked on the
critical coordinate, always when the check is hard (`soft = false`), and
under a soft check only when the minimum is non-positive. -/
def Label.checkFeasibility (l : Label) (p : Params)
    (max_res min_res : List ℤ) (soft : Bool) : Bool :=
  (List.range l.resource_consumption.length).all fun i =>
    if l.resource_consumption.getD i 0 ≤ max_res.getD i 0 then
      if i = p.critical_res ∨ soft = false ∨
          (soft = true ∧ min_res.getD i 0 ≤ 0) then
        decide (min_res.getD i 0 ≤ l.resource_consumption.getD i 0)
      else true
    else false

/-- `Label::checkThreshold` (`labelling.cc` lines 172-176). -/
def Label.checkThreshold (l : Label) (threshold : ℤ) : Bool :=
  decide (l.weight ≤ threshold)

/-- `Label::checkStPath` (`labelling.cc` lines 178-185): the partial path
runs from source to sink or from sink to source. -/
def Label.checkStPath (l : Label) (source sink : Vertex) : Bool :=
  (l.partial_path.getD 0 Vertex.dummy = source ∧
      l.partial_path.getLastD Vertex.dummy = sink) ∨
    (l.partial_path.getLastD Vertex.dummy = source ∧
      l.partial_path.getD 0 Vertex.dummy = sink)

/-- `Label::checkDominance` (`labelling.cc` lines 187-245): `l` dominates
`other` in the given direction.  Equal-weight labels with identical
resource vectors never dominate; otherwise the weight must not be larger,
the resources must be componentwise no larger (forward), or no larger off
the critical coordinate and no smaller on it (backward), and in elementary
mode the unreachable marks must be componentwise no larger. -/
def Label.checkDominance (l : Label) (p : Params) (other : Label)
    (direction : Dir) : Bool :=
  let c := p.critical_res
  if l.weight = other.weight ∧
      l.resource_consumption = other.resource_consumption then false
  else if other.weight < l.weight then false
  else
    let resOk :=
      if direction = Dir.FWD then
        (List.range l.resource_consumption.length).all fun i =>
          decide (l.resource_consumption.getD i 0 ≤
            other.resource_consumption.getD i 0)
      else
        decide (other.resource_consumption.getD c 0 ≤
            l.resource_consumption.getD c 0) &&
          ((List.range l.resource_consumption.length).all fun i =>
            if i = c then true
            else decide (l.resource_consumption.getD i 0 ≤
              other.resource_consumption.getD i 0))
    let elemOk :=
      if p.elementary ∧ 0 < l.unreachable_nodes_size ∧
          0 < other.unreachable_nodes_size then
        (List.range l.unreachable_nodes_size.toNat).all fun n =>
          decide (l.unreachable_nodes.getD n 0 ≤
            other.unreachable_nodes.getD n 0)
      else true
    resOk && elemOk

/-- `Label::fullDominance` (`labelling.cc` lines 247-269), translated
verbatim: note that the source computes `checkDominance(other, direction)`
twice — `other_dominates` (line 251) repeats the call of line 250 instead
of asking whether `other` dominates `this`. -/
def Label.fullDominance (l : Label) (p : Params) (other : Label)
    (direction : Dir) : Bool :=
  let this_dominates := l.checkDominance p other direction
  let other_dominates := l.checkDominance p other direction
  if this_dominates then true
  else if ¬this_dominates ∧ ¬other_dominates then
    let flipped_direction := if direction = Dir.FWD then Dir.BWD else Dir.FWD
    let this_dominates_flipped := l.checkDominance p other flipped_direction
    this_dominates_flipped || decide (l.weight < other.weight)
  else false

/-- The label equality operator (`labelling.cc` lines 273-296): same LEMON
vertex id, same weight, same partial-path length and entries, and equal
resource entries over the first label's resource indices. -/
def labelEq (a b : Label) : Bool :=
  if a.vertex.lemon_id ≠ b.vertex.lemon_id then false
  else if a.weight ≠ b.weight then false
  else if a.partial_path.length ≠ b.partial_path.length then false
  else if ¬ ((List.range (min a.partial_path.length b.partial_path.length)).all
      fun i => decide (a.partial_path.getD i Vertex.dummy =
        b.partial_path.getD i Vertex.dummy)) then false
  else (List.range a.resource_consumption.length).all fun i =>
    decide (a.resource_consumption.getD i 0 = b.resource_consumption.getD i 0)

/-- `runDominanceEff` (`labelling.cc` lines 330-355), functionally: walk
the bucket; any label dominated by the candidate is removed; as soon as a
bucket label dominates the candidate the walk stops (remaining labels are
kept) and the candidate is reported dominated. -/
def runDominanceEff (p : Params) (bucket : List Label) (label : Label)
    (direction : Dir) : Bool × List Label :=
  match bucket with
  | [] => (false, [])
  | label2 :: rest =>
    if ¬ labelEq label label2 then
      if label.checkDominance p label2 direction then
        runDominanceEff p rest label direction
      else if label2.checkDominance p label direction then
        (true, label2 :: rest)
      else
        let r := runDominanceEff p rest label direction
        (r.1, label2 :: r.2)
    else
      let r := runDominanceEff p rest label direction
      (r.1, label2 :: r.2)

/-- `processBwdLabel` (`labelling.cc` lines 371-401): reverse the path,
invert the critical coordinate against `max_res[c]`, and — unless
`invert_min_res` — add the given cumulative resource componentwise. -/
def processBwdLabel (p : Params) (label : Label)
    (max_res cumulative_resource : List ℤ) (invert_min_res : Bool) : Label :=
  let new_path := label.partial_path.reverse
  let c := p.critical_res
  let inverted := label.resource_consumption.set c
    (max_res.getD c 0 - label.resource_consumption.getD c 0)
  let new_resources :=
    if invert_min_res then inverted
    else List.zipWith (· + ·) inverted cumulative_resource
  makeLabel p label.weight label.vertex new_resources new_path
    label.unreachable_nodes_size

/-- `getPhiValue` (`labelling.cc` lines 403-411). -/
def getPhiValue (p : Params) (fwd_label bwd_label : Label)
    (max_res : List ℤ) : ℤ :=
  let c := p.critical_res
  |fwd_label.resource_consumption.getD c 0 -
    (max_res.getD c 0 - bwd_label.resource_consumption.getD c 0)|

/-- The `phi` comparison `l.phi < label.phi` of `halfwayCheck`: both sides
must be set (a NaN — `none` — compares false, as for doubles). -/
def phiLt : Option ℤ → Option ℤ → Bool
  | some x, some y => decide (x < y)
  | _, _ => false

/-- `halfwayCheck` (`labelling.cc` lines 413-432): reject (return false)
exactly when some recorded label compares path-equal — the comparison
`std::equal(l.path.begin(), l.path.end(), label.path.begin())` only
examines the first `l.path.size()` entries of `label.path`, i.e. it asks
whether `l`'s path is an initial segment of `label`'s — and has a strictly
smaller `phi`. -/
def halfwayCheck (label : Label) (labels : List Label) : Bool :=
  if labels.any (fun l =>
      decide (label.partial_path.take l.partial_path.length = l.partial_path)
        && phiLt l.phi label.phi) then
    false
  else true

/-- `mergePreCheck` (`labelling.cc` lines 434-454): both labels must be
real (non-sentinel), and in elementary mode the concatenated path must
contain no duplicate vertex (the source sorts a copy and looks for
adjacent duplicates, which is equivalent). -/
def mergePreCheck (p : Params) (fwd_label bwd_label : Label)
    (_max_res : List ℤ) : Bool :=
  if fwd_label.vertex.lemon_id = -1 ∨ bwd_label.vertex.lemon_id = -1 then
    false
  else if p.elementary then
    decide (fwd_label.partial_path ++ bwd_label.partial_path).Nodup
  else true

/-- `mergeLabels` (`labelling.cc` lines 456-524): the empty label is
returned when the adjacency record is uninitialised (no arc between the
two labels); otherwise the default-REF branch extends the forward
resources along the arc and adds them onto the inverted backward label,
while the callback branch calls `REF_join` and patches the critical
coordinate when the callback did not account for the backward inversion. -/
def mergeLabels (p : Params) (fwd_label bwd_label : Label) (adj : AdjVertex)
    (sink : Vertex) (max_res min_res : List ℤ) : Label :=
  if ¬ adj.init then Label.empty
  else
    let c := p.critical_res
    let processed :=
      match p.ref_callback with
      | none =>
        let temp_res := additiveForwardREF fwd_label.resource_consumption
          adj.resource_consumption
        let bwd_processed := processBwdLabel p bwd_label max_res temp_res false
        (bwd_processed.resource_consumption, bwd_processed)
      | some ref =>
        let final_res := ref.ref_join fwd_label.resource_consumption
          bwd_label.resource_consumption fwd_label.vertex.user_id
          bwd_label.vertex.user_id adj.resource_consumption
        let bwd_res_inverted := max_res.getD c 0 -
          bwd_label.resource_consumption.getD c 0
        let bwd_monotone_edge :=
          if adj.resource_consumption.getD c 0 = 0 then 1
          else adj.resource_consumption.getD c 0
        let final_res :=
          if final_res.getD c 0 ≠ fwd_label.resource_consumption.getD c 0 +
              bwd_monotone_edge + bwd_res_inverted then
            final_res.set c (final_res.getD c 0 + bwd_res_inverted)
          else final_res
        let bwd_processed := processBwdLabel p bwd_label max_res min_res false
        (final_res, bwd_processed)
    let final_res := processed.1
    let bwd_processed := processed.2
    let weight := fwd_label.weight + adj.weight + bwd_processed.weight
    let final_path := fwd_label.partial_path ++ bwd_processed.partial_path
    let phi := getPhiValue p fwd_label bwd_label max_res
    makeLabelPhi p weight sink final_res final_path
      fwd_label.unreachable_nodes_size phi

/-- `Label::extend` (`labelling.cc` lines 75-138): extend the label along
one adjacent arc with the direction-appropriate REF, keep the result only
if it passes the soft feasibility check, and otherwise (in elementary
mode) mark the attempted head vertex unreachable on the original label.
Returns the produced label (the empty label on failure) together with the
possibly-updated original label. -/
def Label.extend (l : Label) (p : Params) (adj : AdjVertex) (direction : Dir)
    (max_res min_res : List ℤ) : Label × Label :=
  let new_node := adj.vertex
  let new_partial_path := l.partial_path ++ [new_node]
  let new_resources :=
    if direction = Dir.FWD then
      match p.ref_callback with
      | none => additiveForwardREF l.resource_consumption
          adj.resource_consumption
      | some ref => ref.ref_fwd l.resource_consumption l.vertex.user_id
          new_node.user_id adj.resource_consumption
          (convertToInt l.partial_path) l.weight
    else
      match p.ref_callback with
      | none => additiveBackwardREF l.resource_consumption
          adj.resource_consumption p.critical_res
      | some ref => ref.ref_bwd l.resource_consumption new_node.user_id
          l.vertex.user_id adj.resource_consumption
          (convertToInt l.partial_path) l.weight
  let new_label := makeLabel p (l.weight + adj.weight) new_node new_resources
    new_partial_path l.unreachable_nodes_size
  if new_label.checkFeasibility p max_res min_res true then (new_label, l)
  else
    let l' :=
      if p.elementary then
        { l with unreachable_nodes :=
            l.unreachable_nodes.set new_node.lemon_id.toNat 1 }
      else l
    (Label.empty, l')

/-! ## Graph and preprocessing (`digraph.cc`, `preprocessing.cc`) -/

/-- One arc of the input graph, as recorded by `DiGraph::addEdge`. -/
structure Edge where
  tail : Vertex
  head : Vertex
  weight : ℤ
  resource_consumption : List ℤ
deriving DecidableEq, Repr

instance : Inhabited Edge := ⟨⟨Vertex.dummy, Vertex.dummy, 0, []⟩⟩

/-- The tri-state negative-cost-cycle flag of `DiGraph`
(`digraph.cc`: initialised to `FALSE`, set to `UNKNOWN` by `addEdge` when
a negative-weight arc arrives). -/
inductive NegCycleFlag where
  | FALSE
  | UNKNOWN
  | TRUE
deriving DecidableEq, Repr

/-- The graph together with the oracle fields standing for the LEMON
algorithms run on it: `has_negative_cost_cycle` is the outcome of the
Bellman-Ford negative-cycle query of `preprocessing.cc`
(`checkNegativeCostCycle`), `critical_res_choice` the outcome of
`getCriticalRes`, and `lower_bound_fwd` / `lower_bound_bwd` the outcomes
of `lowerBoundWeight` in each direction. -/
structure BDGraph where
  number_vertices : Nat
  number_edges : Nat
  source : Vertex
  sink : Vertex
  edges : List Edge
  has_negative_cost_cycle : Bool := false
  critical_res_choice : Nat := 0
  lower_bound_fwd : List ℤ := []
  lower_bound_bwd : List ℤ := []

/-- The value of `negative_cost_cycle_present` after all `addEdge` calls
(`digraph.cc` lines 15 and 58-59): it starts at `FALSE` and becomes
`UNKNOWN` as soon as an arc with negative weight is added. -/
def negCycleFlagAfterEdges (edges : List Edge) : NegCycleFlag :=
  edges.foldl
    (fun f e => if e.weight < 0 then NegCycleFlag.UNKNOWN else f)
    NegCycleFlag.FALSE

/-- The value of `all_resources_positive` after all `addEdge` calls
(`digraph.cc` lines 60-63).  Note that `addEdge` *assigns* the flag from
the arc just added — `all_resources_positive = std::all_of(...)` — so the
final value only reflects the last arc inserted (the flag before any
insertion is taken as `true`; its declaration is in the revision of
`digraph.h` absent from the snapshot, and no claim depends on the empty
case). -/
def allResourcesPositiveFlag (edges : List Edge) : Bool :=
  edges.foldl
    (fun _ e => e.resource_consumption.all fun v => decide (0 ≤ v))
    true

/-- Modelled from the spec: `detectNegativeCostCycle` (called by
`runPreprocessing`; its body is absent from the snapshot).  Per §4.5 it
resolves the `UNKNOWN` flag with a Bellman-Ford negative-cycle query from
the source, whose outcome is the graph's `has_negative_cost_cycle`
oracle field. -/
def detectNegativeCostCycle (g : BDGraph) : NegCycleFlag :=
  match negCycleFlagAfterEdges g.edges with
  | NegCycleFlag.UNKNOWN =>
    if g.has_negative_cost_cycle then NegCycleFlag.TRUE else NegCycleFlag.FALSE
  | f => f

/-- The elementary-forcing condition of `BiDirectional::runPreprocessing`
(`bidirectional.cc` lines 103-115): `setElementary(false)` runs exactly
when the detected cycle flag is `FALSE`, `all_resources_positive` holds,
no REF callback is registered, every `min_res` component is zero (the
lambda takes its argument as `bool`, so the test `v == 0` holds exactly
for a zero component), and elementary was requested. -/
def forcesElementaryOff (p : Params) (g : BDGraph) (min_res : List ℤ) : Bool :=
  decide (detectNegativeCostCycle g = NegCycleFlag.FALSE) &&
    allResourcesPositiveFlag g.edges &&
    p.ref_callback.isNone &&
    (min_res.all fun v => decide (v = 0)) &&
    p.elementary

/-- `DiGraph::getAdjVertex` (`digraph.cc`): the head vertex for a forward
query, the tail for a backward one, with the arc weight and consumption;
always initialised. -/
def edgeAdjVertex (e : Edge) (forward : Bool) : AdjVertex :=
  { vertex := if forward then e.head else e.tail,
    weight := e.weight,
    resource_consumption := e.resource_consumption,
    init := true }

/-- The arcs leaving the vertex with the given LEMON id (the engine's
`OutArcIt` loop), in insertion order. -/
def outEdges (g : BDGraph) (lemon_id : Int) : List Edge :=
  g.edges.filter fun e => decide (e.tail.lemon_id = lemon_id)

/-- The arcs entering the vertex with the given LEMON id (the engine's
`InArcIt` loop), in insertion order. -/
def inEdges (g : BDGraph) (lemon_id : Int) : List Edge :=
  g.edges.filter fun e => decide (e.head.lemon_id = lemon_id)

/-! ## Per-direction search state (`search.h` and the helper methods
called from `bidirectional.cc`) -/

/-- One direction's search state.  `visited_vertices` models the
`std::set<int>` (kept sorted ascending); `unprocessed_labels` is the heap
vector. -/
structure SearchState where
  stop : Bool := false
  unprocessed_count : Nat := 0
  processed_count : Nat := 0
  generated_count : Nat := 0
  current_label : Label := Label.empty
  intermediate_label : Label := Label.empty
  efficient_labels : List (List Label) := []
  best_labels : List (Option Label) := []
  visited_vertices : List Int := []
  unprocessed_labels : List Label := []
  lower_bound_weight : List ℤ := []
deriving Repr

/-- Sorted insertion without duplicates, the behaviour of
`std::set<int>::insert`. -/
def sortedInsert : List Int → Int → List Int
  | [], x => [x]
  | y :: ys, x =>
    if x < y then x :: y :: ys
    else if x = y then y :: ys
    else y :: sortedInsert ys x

/-- `Search::pushEfficientLabel`: append the label to the vertex's
bucket. -/
def pushEfficient (s : SearchState) (lemon_id : Int) (lab : Label) :
    SearchState :=
  { s with efficient_labels := (s.efficient_labels.set lemon_id.toNat
      ((s.efficient_labels.getD lemon_id.toNat []) ++ [lab])) }

/-- `Search::replaceBestLabel`: overwrite the vertex's best-label
pointer. -/
def replaceBest (s : SearchState) (lemon_id : Int) (lab : Label) :
    SearchState :=
  { s with best_labels := s.best_labels.set lemon_id.toNat (some lab) }

/-! ### The `std::push_heap` / `std::pop_heap` algorithms used on the
unprocessed-label vector (`labelling.cc` `getNextLabel` and the heap
helpers).  `cmp` is the C++ comparator: the heap keeps
`cmp parent child = false`. -/

/-- Indexed read on the heap vector. -/
def hGet (l : List Label) (i : Nat) : Label := l.getD i Label.empty

/-- Swap of two entries of the heap vector. -/
def hSwap (l : List Label) (i j : Nat) : List Label :=
  (l.set i (hGet l j)).set j (hGet l i)

/-- Sift-up of `std::push_heap`. -/
def siftUp (cmp : Label → Label → Bool) :
    Nat → List Label → Nat → List Label
  | 0, l, _ => l
  | fuel + 1, l, i =>
    if i = 0 then l
    else
      let parent := (i - 1) / 2
      if cmp (hGet l parent) (hGet l i) then
        siftUp cmp fuel (hSwap l parent i) parent
      else l

/-- `std::push_heap` on a vector whose last element is the new entry. -/
def pushHeapAlg (cmp : Label → Label → Bool) (l : List Label) : List Label :=
  siftUp cmp l.length l (l.length - 1)

/-- Sift-down of `std::pop_heap`, restricted to the first `n` entries. -/
def siftDown (cmp : Label → Label → Bool) :
    Nat → List Label → Nat → Nat → List Label
  | 0, l, _, _ => l
  | fuel + 1, l, n, i =>
    let li := 2 * i + 1
    let ri := 2 * i + 2
    let largest := if li < n ∧ cmp (hGet l i) (hGet l li) then li else i
    let largest :=
      if ri < n ∧ cmp (hGet l largest) (hGet l ri) then ri else largest
    if largest ≠ i then siftDown cmp fuel (hSwap l largest i) n largest
    else l

/-- `std::pop_heap`: move the heap front to the back and restore the heap
property on the remaining prefix. -/
def popHeapAlg (cmp : Label → Label → Bool) (l : List Label) : List Label :=
  if l.length ≤ 1 then l
  else siftDown cmp l.length (hSwap l 0 (l.length - 1)) (l.length - 1) 0

/-- The label `operator<` (`labelling.cc` lines 298-302): comparison of
the critical resource. -/
def labelLtC (c : Nat) (a b : Label) : Bool :=
  decide (a.resource_consumption.getD c 0 < b.resource_consumption.getD c 0)

/-- The label `operator>` (`labelling.cc` lines 304-308). -/
def labelGtC (c : Nat) (a b : Label) : Bool :=
  decide (b.resource_consumption.getD c 0 < a.resource_consumption.getD c 0)

/-- `getNextLabel` (`labelling.cc` lines 357-369): pop the heap (with
`std::greater` — `operator>` — forward, the default `operator<`
backward), return the back and the shrunken vector. -/
def getNextLabel (c : Nat) (labels : List Label) (direction : Dir) :
    Label × List Label :=
  let heaped :=
    if direction = Dir.FWD then popHeapAlg (labelGtC c) labels
    else popHeapAlg (labelLtC c) labels
  (heaped.getLastD Label.empty, heaped.dropLast)

/-- `Search::pushUnprocessedLabel`: push onto the heap with the
direction's comparator. -/
def pushUnprocessed (c : Nat) (labels : List Label) (direction : Dir)
    (lab : Label) : List Label :=
  if direction = Dir.FWD then pushHeapAlg (labelGtC c) (labels ++ [lab])
  else pushHeapAlg (labelLtC c) (labels ++ [lab])

/-! ## The bidirectional driver (`bidirectional.cc`) -/

/-- The whole engine state: parameters (mutated by preprocessing), graph,
static and dynamic resource bounds, the two searches, the global best
label and the early-termination bookkeeping. -/
structure BDState where
  params : Params
  graph : BDGraph
  max_res : List ℤ
  min_res : List ℤ
  max_res_curr : List ℤ := []
  min_res_curr : List ℤ := []
  fwd : SearchState := {}
  bwd : SearchState := {}
  best_label : Label := Label.empty
  primal_st_bound : Option ℤ := none
  terminated_early_w_st_path : Bool := false
  terminated_early_w_st_path_direction : Dir := Dir.FWD

/-- `getSearchPtr`. -/
def getSearch (st : BDState) (d : Dir) : SearchState :=
  if d = Dir.FWD then st.fwd else st.bwd

/-- Write one direction's search state back. -/
def setSearch (st : BDState) (d : Dir) (s : SearchState) : BDState :=
  if d = Dir.FWD then { st with fwd := s } else { st with bwd := s }

/-- `BiDirectional::runPreprocessing` (`bidirectional.cc` lines 94-128):
optional critical-resource selection, the elementary forcing, and the
optional lower-bound computation. -/
def runPreprocessing (st : BDState) : BDState :=
  let st :=
    if st.params.direction = Dir.BOTH ∧ st.params.find_critical_res then
      { st with params :=
          { st.params with critical_res := st.graph.critical_res_choice } }
    else st
  let st :=
    if forcesElementaryOff st.params st.graph st.min_res then
      { st with params := { st.params with elementary := false } }
    else st
  if st.params.bounds_pruning then
    let st :=
      if st.params.direction = Dir.BOTH ∨ st.params.direction = Dir.FWD then
        { st with fwd :=
            { st.fwd with lower_bound_weight := st.graph.lower_bound_fwd } }
      else st
    if st.params.direction = Dir.BOTH ∨ st.params.direction = Dir.BWD then
      { st with bwd :=
          { st.bwd with lower_bound_weight := st.graph.lower_bound_bwd } }
    else st
  else st

/-- `BiDirectional::initSearch` (`bidirectional.cc` lines 155-161):
allocate the per-vertex containers. -/
def initSearchAlloc (g : BDGraph) (s : SearchState) : SearchState :=
  { s with
      lower_bound_weight := List.replicate g.number_vertices 0,
      efficient_labels := List.replicate g.number_vertices [],
      best_labels := List.replicate g.number_vertices none }

/-- `BiDirectional::initLabels` (`bidirectional.cc` lines 168-198): seed
the direction with its origin label (zero resources, with the critical
coordinate at `max_res_curr[c]` backward), a dummy intermediate label, the
origin's bucket entry, best-label pointer and visited mark. -/
def initLabels (st : BDState) (d : Dir) : BDState :=
  let res0 : List ℤ := List.replicate st.min_res.length 0
  let c := st.params.critical_res
  let vertex := if d = Dir.FWD then st.graph.source else st.graph.sink
  let res :=
    if d = Dir.FWD then res0
    else res0.set c (st.max_res_curr.getD c 0)
  let lab := makeLabel st.params 0 vertex res [vertex] 0
  let lab2 := makeLabel st.params 0 Vertex.dummy [] [] 0
  let s := getSearch st d
  let s := { s with current_label := lab, intermediate_label := lab2 }
  let s := pushEfficient s vertex.lemon_id lab
  let s := replaceBest s vertex.lemon_id lab
  let s := { s with
      visited_vertices := sortedInsert s.visited_vertices vertex.lemon_id }
  setSearch st d s

/-- `BiDirectional::init` (`bidirectional.cc` lines 130-153) together
with the constructor's state: sentinel best label, resource bounds,
container allocation, preprocessing, then label seeding.  The
`makeHeap` calls of `initContainers` act on still-empty vectors and are
no-ops. -/
def initState (p : Params) (g : BDGraph) (max_res min_res : List ℤ) :
    BDState :=
  let st : BDState := { params := p, graph := g,
                        max_res := max_res, min_res := min_res }
  let st := { st with best_label := Label.empty }
  let st := { st with max_res_curr := max_res, min_res_curr := min_res }
  let st :=
    if p.direction = Dir.BOTH ∨ p.direction = Dir.FWD then
      { st with fwd := initSearchAlloc g st.fwd }
    else st
  let st :=
    if p.direction = Dir.BOTH ∨ p.direction = Dir.BWD then
      { st with bwd := initSearchAlloc g st.bwd }
    else st
  let st := runPreprocessing st
  let st :=
    if st.params.direction = Dir.BOTH ∨ st.params.direction = Dir.FWD then
      initLabels st Dir.FWD
    else st
  if st.params.direction = Dir.BOTH ∨ st.params.direction = Dir.BWD then
    initLabels st Dir.BWD
  else st

/-- `BiDirectional::checkBounds` (`bidirectional.cc` lines 332-351): the
search may continue when the direction's critical bound holds (forward
`res[c] <= max_res_curr[c]`, backward strictly `res[c] > min_res_curr[c]`)
*or* when the two dynamic bounds still differ; otherwise the bounds are
reported exceeded only in both-directions mode. -/
def checkBounds (st : BDState) (d : Dir) : Bool :=
  let s := getSearch st d
  let c := st.params.critical_res
  if (d = Dir.FWD ∧
        s.current_label.resource_consumption.getD c 0 ≤
          st.max_res_curr.getD c 0) ∨
      (d = Dir.BWD ∧
        st.min_res_curr.getD c 0 <
          s.current_label.resource_consumption.getD c 0) ∨
      st.max_res_curr.getD c 0 ≠ st.min_res_curr.getD c 0 then
    false
  else if st.params.direction = Dir.BOTH then true
  else false

/-- `BiDirectional::checkPrimalBound` (`bidirectional.cc` lines
353-369). -/
def checkPrimalBound (st : BDState) (d : Dir) (candidate : Label) : Bool :=
  if ¬ st.params.bounds_pruning then false
  else
    match st.primal_st_bound with
    | none => false
    | some pb =>
      decide (pb < candidate.weight +
        (getSearch st d).lower_bound_weight.getD
          candidate.vertex.lemon_id.toNat 0)

/-- `BiDirectional::checkVertexVisited` (`bidirectional.cc` lines
371-378). -/
def checkVertexVisited (st : BDState) (d : Dir) (vertex_idx : Int) : Bool :=
  vertex_idx ∈ (getSearch st d).visited_vertices

/-- `BiDirectional::updateHalfWayPoints` (`bidirectional.cc` lines
380-396): a forward step raises `min_res_curr[c]` to
`max(min_res_curr[c], min(current.res[c], max_res_curr[c]))`; a backward
step lowers `max_res_curr[c]` to
`min(max_res_curr[c], max(current.res[c], min_res_curr[c]))`. -/
def updateHalfWayPoints (st : BDState) (d : Dir) : BDState :=
  let s := getSearch st d
  let c := st.params.critical_res
  if d = Dir.FWD then
    { st with min_res_curr := (st.min_res_curr.set c
        (max (st.min_res_curr.getD c 0)
          (min (s.current_label.resource_consumption.getD c 0)
            (st.max_res_curr.getD c 0)))) }
  else
    { st with max_res_curr := (st.max_res_curr.set c
        (min (st.max_res_curr.getD c 0)
          (max (s.current_label.resource_consumption.getD c 0)
            (st.min_res_curr.getD c 0)))) }

/-- `BiDirectional::updateBestLabels` (`bidirectional.cc` lines 507-538):
skip a forward label at the sink (or backward at the source) that is not
hard-feasible; otherwise install the candidate when it strictly improves
the vertex's best weight or no best exists. -/
def updateBestLabels (st : BDState) (d : Dir) (candidate : Label) : BDState :=
  let s := getSearch st d
  let lemon_id := candidate.vertex.lemon_id
  let stop :=
    (d = Dir.FWD ∧ lemon_id = st.graph.sink.lemon_id ∧
      ¬ candidate.checkFeasibility st.params st.max_res st.min_res false) ∨
    (d = Dir.BWD ∧ lemon_id = st.graph.source.lemon_id ∧
      ¬ candidate.checkFeasibility st.params st.max_res st.min_res false)
  if stop then st
  else
    match s.best_labels.getD lemon_id.toNat none with
    | some b =>
      if candidate.weight < b.weight then
        setSearch st d (replaceBest s lemon_id candidate)
      else st
    | none => setSearch st d (replaceBest s lemon_id candidate)

/-- `BiDirectional::updateEfficientLabels` (`bidirectional.cc` lines
463-505): ignore a candidate bitwise-equal to a bucket member; otherwise
count it, run the dominance sweep — but only when the bucket holds *more
than one* label (`efficient_labels_vertex.size() > 1`) — and when neither
dominated nor pruned push it into the bucket and the unprocessed heap;
finally update the best label and the visited set. -/
def updateEfficientLabels (st : BDState) (d : Dir) (candidate : Label) :
    BDState :=
  let s := getSearch st d
  let lemon_id := candidate.vertex.lemon_id
  let bucket := s.efficient_labels.getD lemon_id.toNat []
  if bucket.any fun l => labelEq l candidate then st
  else
    let s := { s with generated_count := s.generated_count + 1 }
    let s :=
      if 1 < bucket.length then
        let r := runDominanceEff st.params bucket candidate d
        let s := { s with efficient_labels :=
            (s.efficient_labels.set lemon_id.toNat r.2) }
        if ¬ r.1 ∧ ¬ checkPrimalBound st d candidate then
          let s := pushEfficient s lemon_id candidate
          { s with unprocessed_labels := (pushUnprocessed
              st.params.critical_res s.unprocessed_labels d candidate) }
        else s
      else
        let s := pushEfficient s lemon_id candidate
        { s with unprocessed_labels := (pushUnprocessed
            st.params.critical_res s.unprocessed_labels d candidate) }
    let st := setSearch st d s
    let st := updateBestLabels st d candidate
    let s := getSearch st d
    setSearch st d { s with
      visited_vertices := sortedInsert s.visited_vertices lemon_id }

/-- Modelled from the spec: the elementary-mode membership test
`label->unreachable_nodes.find(...)` of `extendSingleLabel` (the
snapshot's revisions disagree on the container; per §4.3 step 1 the test
asks whether the adjacent vertex is already marked unreachable). -/
def unreachableContains (l : Label) (v : Vertex) : Bool :=
  decide (l.unreachable_nodes.getD v.lemon_id.toNat 0 = 1)

/-- Modelled from the spec: `Label::checkPathExtension` (called by
`extendSingleLabel`; body absent from the snapshot).  Per §4.3 step 1 it
forbids the immediate 2-cycle `..., w, v, w`: the vertex before the
label's endpoint must differ from the proposed extension. -/
def checkPathExtension (l : Label) (user_id : Int) : Bool :=
  decide ((l.partial_path.getD (l.partial_path.length - 2)
    Vertex.dummy).user_id ≠ user_id)

/-- `BiDirectional::extendSingleLabel` (`bidirectional.cc` lines
434-461): skip unreachable heads in elementary mode and immediate
2-cycles, extend, and insert resource-feasible results.  Returns the new
engine state and the (possibly unreachable-updated) extending label. -/
def extendSingleLabel (st : BDState) (d : Dir) (label : Label)
    (adj : AdjVertex) : BDState × Label :=
  if (¬ st.params.elementary) ∨
      (st.params.elementary ∧ ¬ unreachableContains label adj.vertex) then
    if label.partial_path.length ≤ 1 ∨
        (1 < label.partial_path.length ∧
          checkPathExtension label adj.vertex.user_id) then
      let r := label.extend st.params adj d st.max_res_curr st.min_res_curr
      if r.1.vertex.lemon_id ≠ -1 then (updateEfficientLabels st d r.1, r.2)
      else (st, r.2)
    else (st, label)
  else (st, label)

/-- `BiDirectional::extendCurrentLabel` (`bidirectional.cc` lines
398-432): extend the current label along every incident arc (outgoing
forward, incoming backward), threading the unreachable updates through
the current label. -/
def extendCurrentLabel (st : BDState) (d : Dir) : BDState :=
  let s := getSearch st d
  let arcs :=
    if d = Dir.FWD then outEdges st.graph s.current_label.vertex.lemon_id
    else inEdges st.graph s.current_label.vertex.lemon_id
  let r := arcs.foldl
    (fun (acc : BDState × Label) e =>
      extendSingleLabel acc.1 d acc.2 (edgeAdjVertex e (d = Dir.FWD)))
    (st, s.current_label)
  let s := getSearch r.1 d
  setSearch r.1 d { s with current_label := r.2 }

/-- `BiDirectional::saveCurrentBestLabel` (`bidirectional.cc` lines
540-592): adopt the current label as intermediate when the intermediate
is unset; otherwise, for a hard-feasible current label, replace on full
dominance at the same vertex, or on completing the first source-sink path
(updating the primal bound). -/
def saveCurrentBestLabel (st : BDState) (d : Dir) : BDState :=
  let s := getSearch st d
  if s.intermediate_label.vertex.lemon_id = -1 then
    setSearch st d { s with intermediate_label := s.current_label }
  else if ¬ s.current_label.checkFeasibility st.params st.max_res st.min_res
      false then st
  else if s.intermediate_label.vertex.lemon_id =
        s.current_label.vertex.lemon_id ∧
      s.current_label.fullDominance st.params s.intermediate_label d then
    setSearch st d { s with intermediate_label := s.current_label }
  else if (d = Dir.FWD ∧
        (s.current_label.partial_path.getLastD Vertex.dummy).user_id =
          st.graph.sink.user_id ∧
        s.intermediate_label.vertex.user_id = st.graph.source.user_id) ∨
      (d = Dir.BWD ∧
        (s.current_label.partial_path.getLastD Vertex.dummy).user_id =
          st.graph.source.user_id ∧
        s.intermediate_label.vertex.user_id = st.graph.sink.user_id) then
    let st := setSearch st d { s with intermediate_label := s.current_label }
    let pb :=
      match st.primal_st_bound with
      | none => some s.current_label.weight
      | some b =>
        if s.current_label.weight < b then some s.current_label.weight
        else some b
    { st with primal_st_bound := pb }
  else st

/-- `BiDirectional::updateCurrentLabel` (`bidirectional.cc` lines
300-314): pop the next label from the heap, or stop when the heap is
empty. -/
def updateCurrentLabel (st : BDState) (d : Dir) : BDState :=
  let s := getSearch st d
  if 0 < s.unprocessed_labels.length then
    let r := getNextLabel st.params.critical_res s.unprocessed_labels d
    setSearch st d { s with
      current_label := r.1,
      unprocessed_labels := r.2,
      unprocessed_count := r.2.length }
  else setSearch st d { s with stop := true }

/-- `BiDirectional::move` (`bidirectional.cc` lines 265-278): extend and
save when the bounds are not exceeded, otherwise raise the direction's
stop flag; then update the halfway point, fetch the next label, and count
the processed label. -/
def move (st : BDState) (d : Dir) : BDState :=
  let bounds_exceeded := checkBounds st d
  let st :=
    if ¬ bounds_exceeded then saveCurrentBestLabel (extendCurrentLabel st d) d
    else setSearch st d { getSearch st d with stop := true }
  let st := updateHalfWayPoints st d
  let st := updateCurrentLabel st d
  let s := getSearch st d
  setSearch st d { s with processed_count := s.processed_count + 1 }

/-- `BiDirectional::getDirection` (`bidirectional.cc` lines 212-263). -/
def getDirection (st : BDState) : Dir :=
  if st.params.direction = Dir.BOTH then
    if ¬ st.fwd.stop ∧ st.bwd.stop then Dir.FWD
    else if st.fwd.stop ∧ ¬ st.bwd.stop then Dir.BWD
    else if ¬ st.fwd.stop ∧ ¬ st.bwd.stop then
      if st.params.method = "generated" then
        if st.fwd.generated_count < st.bwd.generated_count then Dir.FWD
        else Dir.BWD
      else if st.params.method = "processed" then
        if st.fwd.processed_count < st.bwd.processed_count then Dir.FWD
        else Dir.BWD
      else if st.params.method = "unprocessed" then
        if st.fwd.unprocessed_count < st.bwd.unprocessed_count then Dir.FWD
        else Dir.BWD
      else Dir.NODIR
    else Dir.NODIR
  else
    if st.params.direction = Dir.FWD ∧ st.fwd.stop then Dir.NODIR
    else if st.params.direction = Dir.BWD ∧ st.bwd.stop then Dir.NODIR
    else st.params.direction

/-- `BiDirectional::checkValidLabel` (`bidirectional.cc` lines 317-330):
a real label with a complete source-sink path under a set threshold
triggers early termination. -/
def checkValidLabel (st : BDState) (d : Dir) (label : Label) :
    Bool × BDState :=
  if label.vertex.lemon_id ≠ -1 ∧
      label.checkStPath st.graph.source st.graph.sink then
    match st.params.threshold with
    | some t =>
      if label.checkThreshold t then
        (true, { st with terminated_early_w_st_path := true,
                         terminated_early_w_st_path_direction := d })
      else (false, st)
    | none => (false, st)
  else (false, st)

/-- `BiDirectional::terminate` (`bidirectional.cc` lines 288-298): the
time-limit check (consulted only when a limit is set; the wall clock is
the `time_exceeded` oracle) followed by the threshold check. -/
def terminateCheck (st : BDState) (d : Dir) (label : Label) :
    Bool × BDState :=
  if st.params.time_limit.isSome ∧ st.params.time_exceeded then (true, st)
  else checkValidLabel st d label

/-- The main loop of `BiDirectional::run` (`bidirectional.cc` lines
76-86), with an explicit iteration budget. -/
def runLoop : Nat → BDState → BDState
  | 0, st => st
  | fuel + 1, st =>
    if ¬ st.fwd.stop ∨ ¬ st.bwd.stop then
      let d := getDirection st
      if d ≠ Dir.NODIR then
        let st := move st d
        let r := terminateCheck st d (getSearch st d).intermediate_label
        if r.1 then r.2 else runLoop fuel r.2
      else st
    else st

/-! ## The join procedure (`bidirectional.cc` lines 598-765).
`Option ℤ` models a `double` that can be `+infinity` (`none`): the upper
bound `UB` and the per-direction minimum weights start at infinity. -/

/-- `w + m` where `m` may be `+infinity`. -/
def addOptW (w : ℤ) : Option ℤ → Option ℤ
  | none => none
  | some m => some (w + m)

/-- `a <= b` on values that may be `+infinity`. -/
def leOpt : Option ℤ → Option ℤ → Bool
  | none, none => true
  | none, some _ => false
  | some _, none => true
  | some a, some b => decide (a ≤ b)

/-- `a < b` where `b` may be `+infinity`. -/
def ltOpt (a : ℤ) : Option ℤ → Bool
  | none => true
  | some u => decide (a < u)

/-- `BiDirectional::getUB` (`bidirectional.cc` lines 635-652): the best
hard-feasible source-sink weight among the forward best at the sink and
the backward best at the source, or `+infinity`. -/
def getUB (st : BDState) : Option ℤ :=
  let fwd_best := st.fwd.best_labels.getD st.graph.sink.lemon_id.toNat none
  let bwd_best := st.bwd.best_labels.getD st.graph.source.lemon_id.toNat none
  let ub : Option ℤ := none
  let ub :=
    match fwd_best with
    | some b =>
      if b.checkFeasibility st.params st.max_res st.min_res false then
        some b.weight
      else ub
    | none => ub
  match bwd_best with
  | some b =>
    if b.checkFeasibility st.params st.max_res st.min_res false then
      if ltOpt b.weight ub then some b.weight else ub
    else ub
  | none => ub

/-- One direction's half of `BiDirectional::getMinimumWeights`
(`bidirectional.cc` lines 654-672): the minimum best-label weight over
the visited vertices other than the direction's origin. -/
def minWeightOver (bests : List (Option Label)) (visited : List Int)
    (skip : Int) : Option ℤ :=
  visited.foldl
    (fun acc n =>
      if n ≠ skip then
        match bests.getD n.toNat none with
        | some b =>
          match acc with
          | none => some b.weight
          | some m => if b.weight < m then some b.weight else acc
        | none => acc
      else acc)
    none

/-- The accumulator threaded through the `joinLabels` loops: the engine
state (whose `best_label` and termination flags evolve), the upper bound
`UB`, the recorded merged labels, and the early-return flag. -/
structure JoinAcc where
  st : BDState
  ub : Option ℤ
  merged : List Label
  exit : Bool

/-- The innermost body of `joinLabels` (`bidirectional.cc` lines
723-754): a merged label that is real, hard-feasible and passes the
halfway filter is adopted when it beats the global best (unset best, full
dominance, or smaller weight), tightening `UB` and possibly terminating
early — in which case the merged label is *not* recorded; every other
merged label is appended to the record. -/
def joinProcessMerged (J : JoinAcc) (merged : Label) : JoinAcc :=
  if merged.vertex.lemon_id ≠ -1 ∧
      merged.checkFeasibility J.st.params J.st.max_res J.st.min_res false ∧
      halfwayCheck merged J.merged then
    if J.st.best_label.vertex.lemon_id = -1 ∨
        merged.fullDominance J.st.params J.st.best_label Dir.FWD ∨
        merged.weight < J.st.best_label.weight then
      let r := terminateCheck { J.st with best_label := merged } Dir.FWD
        merged
      let ub := if ltOpt merged.weight J.ub then some merged.weight else J.ub
      if r.1 then { st := r.2, ub := ub, merged := J.merged, exit := true }
      else { st := r.2, ub := ub, merged := J.merged ++ [merged],
             exit := J.exit }
    else { J with merged := J.merged ++ [merged] }
  else { J with merged := J.merged ++ [merged] }

/-- The backward-label loop of `joinLabels` (`bidirectional.cc` lines
713-757): each backward label at the arc head above the halfway point and
within the bound, passing the merge pre-check, is merged and processed. -/
def joinBwdLoop (st0 : BDState) (HF : ℤ) (fwd_label : Label) (e : Edge)
    (bwds : List Label) (J : JoinAcc) : JoinAcc :=
  bwds.foldl
    (fun J bwd_label =>
      if J.exit then J
      else
        let c := st0.params.critical_res
        if HF ≤ bwd_label.resource_consumption.getD c 0 ∧
            leOpt (some (fwd_label.weight + e.weight + bwd_label.weight))
              J.ub ∧
            mergePreCheck st0.params fwd_label bwd_label st0.max_res then
          joinProcessMerged J
            (mergeLabels st0.params fwd_label bwd_label (edgeAdjVertex e true)
              st0.graph.sink st0.max_res st0.min_res)
        else J)
    J

/-- The successor-arc loop of `joinLabels` (`bidirectional.cc` lines
701-758): each outgoing arc towards a backward-visited head other than
the source, within the bound given the head's backward best label. -/
def joinArcLoop (st0 : BDState) (HF : ℤ) (fwd_label : Label)
    (arcs : List Edge) (J : JoinAcc) : JoinAcc :=
  arcs.foldl
    (fun J e =>
      if J.exit then J
      else
        let m := e.head.lemon_id
        let ok : Bool :=
          checkVertexVisited st0 Dir.BWD m &&
            decide (m ≠ st0.graph.source.lemon_id) &&
            match st0.bwd.best_labels.getD m.toNat none with
            | some bm =>
              leOpt (some (fwd_label.weight + e.weight + bm.weight)) J.ub
            | none => false
        if ok then
          joinBwdLoop st0 HF fwd_label e
            (st0.bwd.efficient_labels.getD m.toNat []) J
        else J)
    J

/-- The forward-label loop of `joinLabels` (`bidirectional.cc` lines
693-762): each forward label at `n` below the halfway point and within
the bound. -/
def joinFwdLoop (st0 : BDState) (HF : ℤ) (bwd_min : Option ℤ) (n : Int)
    (fwds : List Label) (J : JoinAcc) : JoinAcc :=
  fwds.foldl
    (fun J fwd_label =>
      if J.exit then J
      else
        let c := st0.params.critical_res
        if fwd_label.resource_consumption.getD c 0 ≤ HF ∧
            leOpt (addOptW fwd_label.weight bwd_min) J.ub = true then
          joinArcLoop st0 HF fwd_label (outEdges st0.graph n) J
        else J)
    J

/-- The visited-vertex loop of `joinLabels` (`bidirectional.cc` lines
688-764): each forward-visited vertex other than the sink whose best
label passes the bound. -/
def joinVertexLoop (st0 : BDState) (HF : ℤ) (bwd_min : Option ℤ)
    (ns : List Int) (J : JoinAcc) : JoinAcc :=
  ns.foldl
    (fun J n =>
      if J.exit then J
      else
        match st0.fwd.best_labels.getD n.toNat none with
        | some bn =>
          if leOpt (addOptW bn.weight bwd_min) J.ub = true ∧
              n ≠ st0.graph.sink.lemon_id then
            joinFwdLoop st0 HF bwd_min n
              (st0.fwd.efficient_labels.getD n.toNat []) J
          else J
        | none => J)
    J

/-- `BiDirectional::joinLabels` (`bidirectional.cc` lines 674-765). -/
def joinLabels (st : BDState) : BDState :=
  let c := st.params.critical_res
  let ub := getUB st
  let HF := min (st.max_res_curr.getD c 0) (st.min_res_curr.getD c 0)
  let bwd_min := minWeightOver st.bwd.best_labels st.bwd.visited_vertices
    st.graph.sink.lemon_id
  let J := joinVertexLoop st HF bwd_min st.fwd.visited_vertices
    ⟨st, ub, [], false⟩
  J.st

/-- `BiDirectional::postProcessing` (`bidirectional.cc` lines 598-633):
join in both-directions mode; otherwise lift the direction's intermediate
label (processed through `processBwdLabel` backward); after an early
termination, lift the triggering direction's intermediate label. -/
def postProcessing (st : BDState) : BDState :=
  if ¬ st.terminated_early_w_st_path then
    if st.params.direction = Dir.BOTH then joinLabels st
    else if st.params.direction = Dir.FWD then
      { st with best_label := st.fwd.intermediate_label }
    else
      { st with best_label := (processBwdLabel st.params
          st.bwd.intermediate_label st.max_res st.min_res true) }
  else
    if st.terminated_early_w_st_path_direction = Dir.FWD then
      { st with best_label := st.fwd.intermediate_label }
    else
      { st with best_label := (processBwdLabel st.params
          st.bwd.intermediate_label st.max_res st.min_res true) }

/-- `BiDirectional::run` (`bidirectional.cc` lines 71-88), with an
iteration budget for the main loop. -/
def run (p : Params) (g : BDGraph) (max_res min_res : List ℤ) (fuel : Nat) :
    BDState :=
  postProcessing (runLoop fuel (initState p g max_res min_res))

/-- `BiDirectional::getPath` (`bidirectional.cc` lines 41-43): the final
label's partial path as user ids. -/
def getPath (st : BDState) : List Int :=
  st.best_label.partial_path.map Vertex.user_id

/-- `BiDirectional::getConsumedResources` (`bidirectional.cc` lines
45-47). -/
def getConsumedResources (st : BDState) : List ℤ :=
  st.best_label.resource_consumption

/-- `BiDirectional::getTotalCost` (`bidirectional.cc` lines 49-51). -/
def getTotalCost (st : BDState) : ℤ :=
  st.best_label.weight

/-! ## Instance-level path semantics, used to state infeasibility of a
concrete input: a source-sink walk and its additive resource
consumption. -/

/-- Consecutive arcs of a walk are joined head-to-tail. -/
def IsChain : List Edge → Prop
  | [] => True
  | [_] => True
  | e1 :: e2 :: rest => e1.head = e2.tail ∧ IsChain (e2 :: rest)

/-- A (possibly vertex-repeating) walk from the graph's source to its
sink, as a non-empty list of arcs of the graph. -/
def IsStWalk (g : BDGraph) (w : List Edge) : Prop :=
  w ≠ [] ∧ (∀ e ∈ w, e ∈ g.edges) ∧ IsChain w ∧
    (w.headD default).tail = g.source ∧ (w.getLastD default).head = g.sink

/-- The additive cumulative resource vector of a walk (the default-REF
semantics of the solver), over `len` resources. -/
def walkRes (w : List Edge) (len : Nat) : List ℤ :=
  w.foldl (fun acc e => List.zipWith (· + ·) acc e.resource_consumption)
    (List.replicate len 0)

/-- Componentwise satisfaction of the resource bounds. -/
def ResWithinBounds (res max_res min_res : List ℤ) : Prop :=
  ∀ i < res.length, min_res.getD i 0 ≤ res.getD i 0 ∧
    res.getD i 0 ≤ max_res.getD i 0

/-- The disjunction under which `joinLabels` can never adopt a merged
label built from the forward label `f`, the backward label `b` and the
arc `e`: the merge yields the sentinel or a hard-infeasible label. -/
def MergeRejected (st : BDState) (f b : Label) (e : Edge) : Prop :=
  (mergeLabels st.params f b (edgeAdjVertex e true) st.graph.sink st.max_res
      st.min_res).vertex.lemon_id = -1 ∨
  (mergeLabels st.params f b (edgeAdjVertex e true) st.graph.sink st.max_res
      st.min_res).checkFeasibility st.params st.max_res st.min_res false =
    false

instance (st : BDState) (f b : Label) (e : Edge) :
    Decidable (MergeRejected st f b e) := by
  unfold MergeRejected
  infer_instance

/-! ## One halfway-point step, for stating the monotonicity invariant:
in a `move` of direction `d` the engine calls `updateHalfWayPoints` with
that direction's current label, so any run's sequence of halfway updates
is a fold of `hwStep` over the (direction, current label) pairs of its
steps. -/

/-- Install the step's current label and perform the halfway update of
that step (`move`, `bidirectional.cc` line 274). -/
def hwStep (st : BDState) (x : Dir × Label) : BDState :=
  updateHalfWayPoints
    (setSearch st x.1 { getSearch st x.1 with current_label := x.2 }) x.1

/-- The halfway updates of a whole sequence of steps. -/
def hwRun (st : BDState) (steps : List (Dir × Label)) : BDState :=
  steps.foldl hwStep st

/-! ## Concrete instances used by the counterexamples and witnesses -/

/-- Vertex with ids 0. -/
def cV0 : Vertex := ⟨0, 0⟩

/-- Vertex with ids 1. -/
def cV1 : Vertex := ⟨1, 1⟩

/-- Vertex with ids 2. -/
def cV2 : Vertex := ⟨2, 2⟩

/-- Default parameters (both directions, critical resource 0). -/
def pPlain : Params := {}

/-- A two-vertex graph whose single arc consumes 10 units of the only
resource: with `max_res = [1]` no source-sink path is within bounds. -/
def c1Graph : BDGraph :=
  { number_vertices := 2, number_edges := 1, source := cV0, sink := cV1,
    edges := [⟨cV0, cV1, 7, [10]⟩] }

/-- Forward-only parameters. -/
def c1Params : Params := { direction := Dir.FWD }

/-- The full forward-only run on the infeasible instance (the loop needs
two iterations; 5 is a generous budget). -/
def c1Run : BDState := run c1Params c1Graph [1] [0] 5

/-- The engine state right after `init` for a both-directions run on the
infeasible instance. -/
def c1BothInit : BDState := initState pPlain c1Graph [1] [0]

/-- A three-vertex graph with two parallel arcs 0→1 of weights 1 and 2
and one arc 1→2. -/
def c2Graph : BDGraph :=
  { number_vertices := 3, number_edges := 3, source := cV0, sink := cV2,
    edges := [⟨cV0, cV1, 1, [1]⟩, ⟨cV0, cV1, 2, [1]⟩, ⟨cV1, cV2, 0, [1]⟩] }

/-- Forward-only parameters for the bucket experiment. -/
def c2Params : Params := { direction := Dir.FWD }

/-- The engine state after the first step of the run on `c2Graph`: the
source label has been extended along both parallel arcs. -/
def c2State : BDState := runLoop 1 (initState c2Params c2Graph [10] [0])

/-- The bucket of vertex 1 (LEMON id 1) in `c2State`. -/
def c2Bucket : List Label :=
  (getSearch c2State Dir.FWD).efficient_labels.getD 1 []

/-- The extension of the source label along the weight-1 arc. -/
def c2LabA : Label :=
  { weight := 1, vertex := cV1, resource_consumption := [1],
    partial_path := [cV0, cV1] }

/-- The extension of the source label along the weight-2 arc. -/
def c2LabB : Label :=
  { weight := 2, vertex := cV1, resource_consumption := [1],
    partial_path := [cV0, cV1] }

/-- Label of weight 0 and resource vector `[1]` at vertex 0. -/
def c3LabA : Label :=
  { weight := 0, vertex := cV0, resource_consumption := [1],
    partial_path := [cV0] }

/-- Label of weight 0 and resource vector `[0]` at vertex 0. -/
def c3LabB : Label :=
  { weight := 0, vertex := cV0, resource_consumption := [0],
    partial_path := [cV0] }

/-- A both-directions state whose forward current label has critical
resource 5 while the dynamic bounds are `[0, 1]`: the forward critical
bound is crossed but the two dynamic bounds differ. -/
def c4State : BDState :=
  { params := { direction := Dir.BOTH }, graph := c1Graph,
    max_res := [1], min_res := [0],
    max_res_curr := [1], min_res_curr := [0],
    fwd := { current_label :=
      { weight := 0, vertex := cV0, resource_consumption := [5],
        partial_path := [cV0] } } }

/-- `c4State` with the dynamic bounds met (`min = max = 1`): here the
crossed forward bound does stop the search. -/
def c4StopState : BDState := { c4State with min_res_curr := [1] }

/-- Two arcs of zero weight whose resource vectors are `[-1]` and `[1]`:
the last `addEdge` overwrites `all_resources_positive` with `true`. -/
def c5Graph : BDGraph :=
  { number_vertices := 3, number_edges := 2, source := cV0, sink := cV2,
    edges := [⟨cV0, cV1, 0, [-1]⟩, ⟨cV1, cV2, 0, [1]⟩] }

/-- Parameters requesting elementary paths. -/
def c5Params : Params := { elementary := true }

/-- A state for `c5Graph` about to run preprocessing. -/
def c5State : BDState :=
  { params := c5Params, graph := c5Graph, max_res := [5], min_res := [0] }

/-- A recorded merged label whose path is the single vertex 0, with
`phi = 1`. -/
def c6Recorded : Label := { partial_path := [cV0], phi := some 1 }

/-- A merged label with the longer path `[0, 1]` and `phi = 2`: the
recorded label's path is a proper initial segment of its path. -/
def c6Merged : Label := { partial_path := [cV0, cV1], phi := some 2 }

/-- A join accumulator (over the `c5State` engine state, whose threshold
and time limit are unset) with nothing recorded. -/
def c6Acc : JoinAcc := ⟨c5State, none, [], false⟩

/-- A label with a single resource of value 5, for the `processBwdLabel`
involution witness. -/
def c9Lab : Label :=
  { weight := 3, vertex := cV1, resource_consumption := [5],
    partial_path := [cV1] }

/-- An uninitialised adjacency record. -/
def c10Adj : AdjVertex :=
  { vertex := Vertex.dummy, weight := 0, resource_consumption := [],
    init := false }

/-! ## Helper lemmas -/

lemma getD_set_self_q (l : List ℤ) (i : Nat) (v : ℤ) (h : i < l.length) :
    (l.set i v).getD i 0 = v := by
  simp [List.getD_eq_getElem?_getD, List.getElem?_set_self, h]

lemma getD_set_ne_q (l : List ℤ) (i j : Nat) (v : ℤ) (h : i ≠ j) :
    (l.set i v).getD j 0 = l.getD j 0 := by
  simp [List.getD_eq_getElem?_getD, List.getElem?_set_ne h]

lemma getD_zipWith_add (a b : List ℤ) (i : Nat) (h1 : i < a.length)
    (h2 : i < b.length) :
    (List.zipWith (· + ·) a b).getD i 0 = a.getD i 0 + b.getD i 0 := by
  simp only [List.getD_eq_getElem?_getD, List.getElem?_zipWith]
  rw [List.getElem?_eq_getElem h1, List.getElem?_eq_getElem h2]
  simp

lemma mem_bucket_flatten (l : List (List Label)) (i : Nat) (x : Label)
    (h : x ∈ l.getD i []) : x ∈ l.flatten := by
  rcases Nat.lt_or_ge i l.length with hi | hi
  · exact List.mem_flatten.mpr ⟨l[i], List.getElem_mem hi, by
      rwa [List.getD_eq_getElem?_getD, List.getElem?_eq_getElem hi] at h⟩
  · rw [List.getD_eq_getElem?_getD, List.getElem?_eq_none hi] at h
    simp at h

lemma mem_of_outEdges (g : BDGraph) (n : Int) (e : Edge)
    (h : e ∈ outEdges g n) : e ∈ g.edges :=
  List.mem_of_mem_filter h

lemma getSearch_setSearch (st : BDState) (d : Dir) (s : SearchState) :
    getSearch (setSearch st d s) d = s := by
  unfold getSearch setSearch
  by_cases h : d = Dir.FWD <;> simp [h]

lemma setSearch_params (st : BDState) (d : Dir) (s : SearchState) :
    (setSearch st d s).params = st.params := by
  unfold setSearch
  by_cases h : d = Dir.FWD <;> simp [h]

lemma setSearch_min_res_curr (st : BDState) (d : Dir) (s : SearchState) :
    (setSearch st d s).min_res_curr = st.min_res_curr := by
  unfold setSearch
  by_cases h : d = Dir.FWD <;> simp [h]

lemma setSearch_max_res_curr (st : BDState) (d : Dir) (s : SearchState) :
    (setSearch st d s).max_res_curr = st.max_res_curr := by
  unfold setSearch
  by_cases h : d = Dir.FWD <;> simp [h]

lemma updateHalfWayPoints_params (st : BDState) (d : Dir) :
    (updateHalfWayPoints st d).params = st.params := by
  unfold updateHalfWayPoints
  by_cases h : d = Dir.FWD <;> simp [h]

lemma getSearch_updateHalfWayPoints (st : BDState) (d d' : Dir) :
    getSearch (updateHalfWayPoints st d') d = getSearch st d := by
  unfold updateHalfWayPoints getSearch
  by_cases h : d' = Dir.FWD <;> by_cases h2 : d = Dir.FWD <;> simp [h, h2]

lemma updateCurrentLabel_stop (st : BDState) (d : Dir)
    (h : (getSearch st d).stop = true) :
    (getSearch (updateCurrentLabel st d) d).stop = true := by
  unfold updateCurrentLabel
  by_cases hl : 0 < (getSearch st d).unprocessed_labels.length <;>
    simp [hl, getSearch_setSearch, h]

lemma hwStep_params (st : BDState) (x : Dir × Label) :
    (hwStep st x).params = st.params := by
  unfold hwStep
  rw [updateHalfWayPoints_params, setSearch_params]

lemma hwStep_min_mono (st : BDState) (x : Dir × Label) :
    st.min_res_curr.getD st.params.critical_res 0 ≤
      (hwStep st x).min_res_curr.getD st.params.critical_res 0 := by
  unfold hwStep updateHalfWayPoints
  by_cases h : x.1 = Dir.FWD <;>
    simp only [h, if_pos, if_neg, reduceIte, setSearch_params,
      setSearch_min_res_curr, setSearch_max_res_curr]
  · rcases Nat.lt_or_ge st.params.critical_res st.min_res_curr.length with
      hc | hc
    · rw [getD_set_self_q _ _ _ hc]
      exact le_max_left _ _
    · rw [List.set_eq_of_length_le hc]
  · exact le_refl _

lemma hwStep_max_mono (st : BDState) (x : Dir × Label) :
    (hwStep st x).max_res_curr.getD st.params.critical_res 0 ≤
      st.max_res_curr.getD st.params.critical_res 0 := by
  unfold hwStep updateHalfWayPoints
  by_cases h : x.1 = Dir.FWD <;>
    simp only [h, if_pos, if_neg, reduceIte, setSearch_params,
      setSearch_min_res_curr, setSearch_max_res_curr]
  · exact le_refl _
  · rcases Nat.lt_or_ge st.params.critical_res st.max_res_curr.length with
      hc | hc
    · rw [getD_set_self_q _ _ _ hc]
      exact min_le_left _ _
    · rw [List.set_eq_of_length_le hc]

lemma move_stop_eq (st : BDState) (d : Dir) (h : checkBounds st d = true) :
    move st d = setSearch
      (updateCurrentLabel (updateHalfWayPoints
        (setSearch st d { getSearch st d with stop := true }) d) d) d
      { getSearch (updateCurrentLabel (updateHalfWayPoints
          (setSearch st d { getSearch st d with stop := true }) d) d) d with
        processed_count := (getSearch (updateCurrentLabel
          (updateHalfWayPoints (setSearch st d
            { getSearch st d with stop := true }) d) d) d).processed_count +
          1 } := by
  unfold move
  rw [h]
  rfl

lemma joinProcessMerged_st_of_rejected (J : JoinAcc) (merged : Label)
    (h : merged.vertex.lemon_id = -1 ∨
      merged.checkFeasibility J.st.params J.st.max_res J.st.min_res false =
        false) :
    (joinProcessMerged J merged).st = J.st := by
  unfold joinProcessMerged
  rw [if_neg]
  rintro ⟨h1, h2, -⟩
  rcases h with h | h
  · exact h1 h
  · rw [h] at h2
    exact Bool.false_ne_true h2

lemma joinBwdLoop_st (st0 : BDState) (HF : ℤ) (f : Label) (e : Edge) :
    ∀ (bwds : List Label) (J : JoinAcc), J.st = st0 →
      (∀ b ∈ bwds, MergeRejected st0 f b e) →
      (joinBwdLoop st0 HF f e bwds J).st = st0
  | [], J, hJ, _ => by simpa [joinBwdLoop] using hJ
  | b :: bs, J, hJ, h => by
    rw [joinBwdLoop, List.foldl_cons, ← joinBwdLoop]
    apply joinBwdLoop_st st0 HF f e bs _ _
      (fun x hx => h x (List.mem_cons_of_mem _ hx))
    by_cases he : J.exit = true
    · simpa [he] using hJ
    · simp only [he, Bool.false_eq_true, if_neg, reduceIte]
      split
      · rw [joinProcessMerged_st_of_rejected]
        · exact hJ
        · have := h b (List.mem_cons_self _ _)
          unfold MergeRejected at this
          rw [hJ]
          exact this
      · exact hJ

lemma joinArcLoop_st (st0 : BDState) (HF : ℤ) (f : Label) :
    ∀ (arcs : List Edge) (J : JoinAcc), J.st = st0 →
      (∀ e ∈ arcs,
        ∀ b ∈ st0.bwd.efficient_labels.getD e.head.lemon_id.toNat [],
          MergeRejected st0 f b e) →
      (joinArcLoop st0 HF f arcs J).st = st0
  | [], J, hJ, _ => by simpa [joinArcLoop] using hJ
  | e :: es, J, hJ, h => by
    rw [joinArcLoop, List.foldl_cons, ← joinArcLoop]
    apply joinArcLoop_st st0 HF f es _ _
      (fun x hx => h x (List.mem_cons_of_mem _ hx))
    by_cases he : J.exit = true
    · simpa [he] using hJ
    · simp only [he, Bool.false_eq_true, if_neg, reduceIte]
      split
      · exact joinBwdLoop_st st0 HF f e _ J hJ
          (h e (List.mem_cons_self _ _))
      · exact hJ

lemma joinFwdLoop_st (st0 : BDState) (HF : ℤ) (bwd_min : Option ℤ)
    (n : Int) :
    ∀ (fwds : List Label) (J : JoinAcc), J.st = st0 →
      (∀ f ∈ fwds, ∀ e ∈ outEdges st0.graph n,
        ∀ b ∈ st0.bwd.efficient_labels.getD e.head.lemon_id.toNat [],
          MergeRejected st0 f b e) →
      (joinFwdLoop st0 HF bwd_min n fwds J).st = st0
  | [], J, hJ, _ => by simpa [joinFwdLoop] using hJ
  | f :: fs, J, hJ, h => by
    rw [joinFwdLoop, List.foldl_cons, ← joinFwdLoop]
    apply joinFwdLoop_st st0 HF bwd_min n fs _ _
      (fun x hx => h x (List.mem_cons_of_mem _ hx))
    by_cases he : J.exit = true
    · simpa [he] using hJ
    · simp only [he, Bool.false_eq_true, if_neg, reduceIte]
      split
      · exact joinArcLoop_st st0 HF f _ J hJ
          (fun e hev => h f (List.mem_cons_self _ _) e hev)
      · exact hJ

lemma joinVertexLoop_st (st0 : BDState) (HF : ℤ) (bwd_min : Option ℤ) :
    ∀ (ns : List Int) (J : JoinAcc), J.st = st0 →
      (∀ n ∈ ns,
        ∀ f ∈ st0.fwd.efficient_labels.getD n.toNat [],
          ∀ e ∈ outEdges st0.graph n,
            ∀ b ∈ st0.bwd.efficient_labels.getD e.head.lemon_id.toNat [],
              MergeRejected st0 f b e) →
      (joinVertexLoop st0 HF bwd_min ns J).st = st0
  | [], J, hJ, _ => by simpa [joinVertexLoop] using hJ
  | n :: ns, J, hJ, h => by
    rw [joinVertexLoop, List.foldl_cons, ← joinVertexLoop]
    apply joinVertexLoop_st st0 HF bwd_min ns _ _
      (fun x hx => h x (List.mem_cons_of_mem _ hx))
    by_cases he : J.exit = true
    · simpa [he] using hJ
    · simp only [he, Bool.false_eq_true, if_neg, reduceIte]
      split
      · split
        · exact joinFwdLoop_st st0 HF bwd_min n _ J hJ
            (fun f hf => h n (List.mem_cons_self _ _) f hf)
        · exact hJ
      · exact hJ

lemma joinLabels_eq_of_rejected (st : BDState)
    (h : ∀ f ∈ st.fwd.efficient_labels.flatten,
      ∀ b ∈ st.bwd.efficient_labels.flatten,
        ∀ e ∈ st.graph.edges, MergeRejected st f b e) :
    joinLabels st = st := by
  unfold joinLabels
  exact joinVertexLoop_st st _ _ st.fwd.visited_vertices ⟨st, _, [], false⟩
    rfl
    (fun n _ f hf e hev b hb =>
      h f (mem_bucket_flatten _ _ _ hf) b (mem_bucket_flatten _ _ _ hb) e
        (mem_of_outEdges _ _ _ hev))

/-! ## Claim theorems -/

/-- C2: the efficient-label bucket invariant fails on the code.  After the
first step of a forward run on `c2Graph` (extending the source label along
the two parallel arcs 0→1), vertex 1's bucket holds both extensions even
though the weight-1 label dominates the weight-2 label: the dominance
sweep of `updateEfficientLabels` runs only when the bucket already holds
more than one label (`efficient_labels_vertex.size() > 1`,
`bidirectional.cc` line 479), so the second label is inserted
unfiltered. -/
theorem bucket_retains_dominated_label :
    c2Bucket = [c2LabA, c2LabB] ∧
    c2LabA.checkDominance c2Params c2LabB Dir.FWD = true := by
  constructor
  · decide
  · rfl

/-- C3: evaluation of `fullDominance` at the claim's failing input.  With
`A = c3LabA` (weight 0, resources `[1]`) and `B = c3LabB` (weight 0,
resources `[0]`) at the same vertex, `B` dominates `A` forward and
`A.weight < B.weight` fails, so by the claim `fullDominance(A, B, FWD)`
should be false; the code returns true because line 251 of `labelling.cc`
recomputes `checkDominance(other, direction)` instead of asking whether
`other` dominates `this`, so the "neither dominates" branch runs and the
flipped-direction check succeeds. -/
theorem fullDominance_ignores_reverse_dominance :
    c3LabA.fullDominance pPlain c3LabB Dir.FWD = true ∧
    c3LabB.checkDominance pPlain c3LabA Dir.FWD = true ∧
    c3LabA.checkDominance pPlain c3LabB Dir.FWD = false ∧
    ¬ c3LabA.weight < c3LabB.weight := by
  refine ⟨rfl, rfl, rfl, ?_⟩
  decide

/-- C5: evaluation of the elementary-forcing condition at the claim's
failing input.  `c5Graph`'s first arc has resource vector `[-1]`, yet
after adding the second arc (`[1]`) the `all_resources_positive` flag is
true — `addEdge` (`digraph.cc` lines 60-63) *assigns* the flag from the
arc just added instead of accumulating it — so preprocessing forces
elementary off although not all arcs have non-negative resource
vectors. -/
theorem preprocessing_forces_elementary_with_negative_arc :
    forcesElementaryOff c5Params c5Graph [0] = true ∧
    (runPreprocessing c5State).params.elementary = false ∧
    c5Params.elementary = true ∧
    (∃ e ∈ c5Graph.edges, ∃ r ∈ e.resource_consumption, r < 0) := by
  refine ⟨rfl, rfl, rfl, ?_⟩
  refine ⟨⟨cV0, cV1, 0, [-1]⟩, by decide, -1, by decide, by decide⟩

/-- C7: the default backward REF adds the arc consumption on every
coordinate other than the critical one, and on the critical coordinate
subtracts the arc contribution when it is positive and 1 otherwise. -/
theorem additiveBackwardREF_coordinates (res arc : List ℤ) (c : Nat)
    (hlen : arc.length = res.length) (hc : c < res.length) :
    (∀ i, i < res.length → i ≠ c →
      (additiveBackwardREF res arc c).getD i 0 =
        res.getD i 0 + arc.getD i 0) ∧
    (additiveBackwardREF res arc c).getD c 0 =
      (if 0 < arc.getD c 0 then res.getD c 0 - arc.getD c 0
       else res.getD c 0 - 1) := by
  have hzlen : (List.zipWith (· + ·) res arc).length = res.length := by
    simp [hlen]
  constructor
  · intro i hi hne
    unfold additiveBackwardREF
    split <;>
      rw [getD_set_ne_q _ _ _ _ (fun hci => hne hci.symm),
        getD_zipWith_add res arc i hi (hlen ▸ hi)]
  · unfold additiveBackwardREF
    split <;> rw [getD_set_self_q _ _ _ (by rw [hzlen]; exact hc)]

/-- Witness for C7: concrete evaluation with `res = [1, 2]`,
`arc = [3, 4]` and critical index 0. -/
theorem additiveBackwardREF_coordinates_witness :
    ([3, 4] : List ℤ).length = ([1, 2] : List ℤ).length ∧
    0 < ([1, 2] : List ℤ).length ∧
    ((∀ i, i < ([1, 2] : List ℤ).length → i ≠ 0 →
      (additiveBackwardREF [1, 2] [3, 4] 0).getD i 0 =
        ([1, 2] : List ℤ).getD i 0 + ([3, 4] : List ℤ).getD i 0) ∧
    (additiveBackwardREF [1, 2] [3, 4] 0).getD 0 0 =
      (if 0 < ([3, 4] : List ℤ).getD 0 0 then
        ([1, 2] : List ℤ).getD 0 0 - ([3, 4] : List ℤ).getD 0 0
       else ([1, 2] : List ℤ).getD 0 0 - 1)) :=
  ⟨rfl, by decide,
    additiveBackwardREF_coordinates [1, 2] [3, 4] 0 rfl (by decide)⟩

/-- C9: `processBwdLabel` with no cumulative resource added
(`invert_min_res = true`) applied twice is the identity on the critical
coordinate: the inversion `res[c] := max_res[c] - res[c]` composed with
itself restores the original value. -/
theorem processBwdLabel_involution_critical (p : Params) (l : Label)
    (max_res cumulative : List ℤ)
    (h : p.critical_res < l.resource_consumption.length) :
    (processBwdLabel p (processBwdLabel p l max_res cumulative true) max_res
        cumulative true).resource_consumption.getD p.critical_res 0 =
      l.resource_consumption.getD p.critical_res 0 := by
  have hres : ∀ (w : ℤ) (v : Vertex) (res : List ℤ) (path : List Vertex)
      (k : Int), (makeLabel p w v res path k).resource_consumption = res :=
    fun _ _ _ _ _ => rfl
  unfold processBwdLabel
  simp only [hres, if_pos, reduceIte]
  have hlen : p.critical_res <
      (l.resource_consumption.set p.critical_res
        (max_res.getD p.critical_res 0 -
          l.resource_consumption.getD p.critical_res 0)).length := by
    rw [List.length_set]
    exact h
  rw [getD_set_self_q _ _ _ hlen, getD_set_self_q _ _ _ h]
  ring

/-- Witness for C9: concrete evaluation on a label with resource vector
`[5]` and `max_res = [7]`. -/
theorem processBwdLabel_involution_critical_witness :
    pPlain.critical_res < c9Lab.resource_consumption.length ∧
    (processBwdLabel pPlain (processBwdLabel pPlain c9Lab [7] [] true) [7]
        [] true).resource_consumption.getD pPlain.critical_res 0 =
      c9Lab.resource_consumption.getD pPlain.critical_res 0 :=
  ⟨by decide,
    processBwdLabel_involution_critical pPlain c9Lab [7] [] (by decide)⟩

/-- C10: `mergeLabels` returns the default-constructed sentinel label
(vertex `{-1, -1}`, empty path, weight 0, empty resources) whenever the
adjacency record is uninitialised, i.e. when no arc connects the two
labels. -/
theorem mergeLabels_uninitialised_sentinel (p : Params) (f b : Label)
    (adj : AdjVertex) (sink : Vertex) (max_res min_res : List ℤ)
    (h : adj.init = false) :
    mergeLabels p f b adj sink max_res min_res = Label.empty ∧
    Label.empty.vertex.lemon_id = -1 ∧ Label.empty.partial_path = [] ∧
    Label.empty.weight = 0 ∧ Label.empty.resource_consumption = [] := by
  refine ⟨?_, rfl, rfl, rfl, rfl⟩
  unfold mergeLabels
  rw [if_pos]
  simp [h]

/-- Witness for C10: concrete evaluation at the uninitialised adjacency
record `c10Adj`. -/
theorem mergeLabels_uninitialised_sentinel_witness :
    c10Adj.init = false ∧
    mergeLabels pPlain Label.empty Label.empty c10Adj Vertex.dummy [] [] =
      Label.empty :=
  ⟨rfl, (mergeLabels_uninitialised_sentinel pPlain Label.empty Label.empty
    c10Adj Vertex.dummy [] [] rfl).1⟩

/-- C8: the dynamic halfway bounds are monotone over any sequence of
halfway updates (each step installing that step's current label, as
`move` does): `min_res_curr[c]` never decreases and `max_res_curr[c]`
never increases. -/
theorem halfway_points_monotone (st : BDState) (steps : List (Dir × Label)) :
    st.min_res_curr.getD st.params.critical_res 0 ≤
      (hwRun st steps).min_res_curr.getD st.params.critical_res 0 ∧
    (hwRun st steps).max_res_curr.getD st.params.critical_res 0 ≤
      st.max_res_curr.getD st.params.critical_res 0 := by
  induction steps generalizing st with
  | nil => exact ⟨le_refl _, le_refl _⟩
  | cons x xs ih =>
    rw [hwRun, List.foldl_cons, ← hwRun]
    have h1 := hwStep_min_mono st x
    have h2 := hwStep_max_mono st x
    have h3 := ih (hwStep st x)
    rw [hwStep_params] at h3
    exact ⟨le_trans h1 h3.1, le_trans h3.2 h2⟩

/-- C4 counterexample: in `c4State` (both-directions mode) the forward
current label's critical resource (5) exceeds `max_res_curr[c]` (1), yet
`checkBounds` reports the bounds not exceeded — because
`max_res_curr[c] ≠ min_res_curr[c]` — and `move` extends the label (the
intermediate label is adopted on the extend path). -/
theorem checkBounds_extends_past_critical_bound :
    checkBounds c4State Dir.FWD = false ∧
    ¬ ((getSearch c4State Dir.FWD).current_label.resource_consumption.getD
        c4State.params.critical_res 0 ≤
      c4State.max_res_curr.getD c4State.params.critical_res 0) ∧
    c4State.params.direction = Dir.BOTH ∧
    (getSearch (move c4State Dir.FWD) Dir.FWD).intermediate_label =
      (getSearch c4State Dir.FWD).current_label := by
  refine ⟨rfl, by decide, rfl, by decide⟩

/-- C4 (amended): a step of direction `d` extends its popped label iff
the direction's critical bound holds (forward
`res[c] ≤ max_res_curr[c]`, backward strictly
`res[c] > min_res_curr[c]`), or the two dynamic bounds still differ, or
the configured mode is not both; when `checkBounds` does report the
bounds exceeded (possible only in both mode), `move` sets the
direction's stop flag. -/
theorem checkBounds_characterization (st : BDState) (d : Dir) :
    (checkBounds st d = false ↔
      ((d = Dir.FWD ∧
          (getSearch st d).current_label.resource_consumption.getD
            st.params.critical_res 0 ≤
          st.max_res_curr.getD st.params.critical_res 0) ∨
        (d = Dir.BWD ∧
          st.min_res_curr.getD st.params.critical_res 0 <
          (getSearch st d).current_label.resource_consumption.getD
            st.params.critical_res 0) ∨
        st.max_res_curr.getD st.params.critical_res 0 ≠
          st.min_res_curr.getD st.params.critical_res 0 ∨
        st.params.direction ≠ Dir.BOTH)) ∧
    (checkBounds st d = true →
      (getSearch (move st d) d).stop = true) := by
  constructor
  · by_cases hP : ((d = Dir.FWD ∧
        (getSearch st d).current_label.resource_consumption.getD
          st.params.critical_res 0 ≤
        st.max_res_curr.getD st.params.critical_res 0) ∨
      (d = Dir.BWD ∧
        st.min_res_curr.getD st.params.critical_res 0 <
        (getSearch st d).current_label.resource_consumption.getD
          st.params.critical_res 0) ∨
      st.max_res_curr.getD st.params.critical_res 0 ≠
        st.min_res_curr.getD st.params.critical_res 0)
    · simp only [checkBounds, if_pos hP]
      tauto
    · by_cases hQ : st.params.direction = Dir.BOTH
      · simp only [checkBounds, if_neg hP, if_pos hQ]
        constructor
        · intro h
          exact absurd h (by simp)
        · intro h
          rcases h with h | h | h | h
          · exact absurd (Or.inl h) hP
          · exact absurd (Or.inr (Or.inl h)) hP
          · exact absurd (Or.inr (Or.inr h)) hP
          · exact absurd hQ h
      · simp only [checkBounds, if_neg hP, if_neg hQ]
        constructor
        · intro _
          exact Or.inr (Or.inr (Or.inr hQ))
        · intro _
          trivial
  · intro h
    rw [move_stop_eq st d h, getSearch_setSearch]
    show (getSearch (updateCurrentLabel
      (updateHalfWayPoints (setSearch st d
        { getSearch st d with stop := true }) d) d) d).stop = true
    exact updateCurrentLabel_stop _ _
      (by rw [getSearch_updateHalfWayPoints, getSearch_setSearch])

/-- Witness for C4: in `c4StopState` the dynamic bounds have met and the
forward bound is crossed, so `checkBounds` reports exceeded and `move`
stops the direction. -/
theorem checkBounds_characterization_witness :
    checkBounds c4StopState Dir.FWD = true ∧
    (getSearch (move c4StopState Dir.FWD) Dir.FWD).stop = true :=
  ⟨rfl, (checkBounds_characterization c4StopState Dir.FWD).2 rfl⟩

/-- C6 counterexample: `halfwayCheck` rejects (returns false for) the
merged label `c6Merged` because the recorded label `c6Recorded` has a
strictly smaller phi and its *shorter* path `[0]` matches an initial
segment of `c6Merged`'s path `[0, 1]` — the two paths are different, yet
the label is rejected, contradicting the claim that only an equal path
can cause rejection. -/
theorem halfwayCheck_rejects_on_proper_initial_segment :
    halfwayCheck c6Merged [c6Recorded] = false ∧
    c6Recorded.partial_path ≠ c6Merged.partial_path := by
  refine ⟨rfl, by decide⟩

/-- C6 (amended): `halfwayCheck` rejects a merged label iff some recorded
label whose path is an initial segment of the merged label's path (the
source compares only the first `l.path.size()` vertices) has strictly
smaller phi — in particular an equal phi never rejects; and, when no
threshold or time limit is set, the join body records every merged label
(accepted or rejected) for subsequent checks. -/
theorem halfwayCheck_characterization_and_recording :
    (∀ (label : Label) (labels : List Label),
      halfwayCheck label labels = false ↔
        ∃ l ∈ labels,
          label.partial_path.take l.partial_path.length = l.partial_path ∧
          phiLt l.phi label.phi = true) ∧
    (∀ (J : JoinAcc) (merged : Label),
      J.st.params.threshold = none → J.st.params.time_limit = none →
      (joinProcessMerged J merged).merged = J.merged ++ [merged]) := by
  constructor
  · intro label labels
    unfold halfwayCheck
    rcases hb : labels.any fun l =>
        decide (label.partial_path.take l.partial_path.length =
          l.partial_path) && phiLt l.phi label.phi with _ | _
    · rw [if_neg (by simp [hb])]
      simp only [Bool.true_eq_false, false_iff]
      rintro ⟨l, hl, h1, h2⟩
      rw [List.any_eq_false] at hb
      have := hb l hl
      rw [h2, decide_eq_true h1] at this
      simp at this
    · rw [if_pos (by simp [hb])]
      simp only [eq_self_iff_true, true_iff]
      rw [List.any_eq_true] at hb
      obtain ⟨l, hl, hfl⟩ := hb
      rw [Bool.and_eq_true, decide_eq_true_eq] at hfl
      exact ⟨l, hl, hfl.1, hfl.2⟩
  · intro J merged hthr htl
    have hr : (terminateCheck { J.st with best_label := merged } Dir.FWD
        merged) = (false, { J.st with best_label := merged }) := by
      unfold terminateCheck checkValidLabel
      rw [if_neg (by simp [htl])]
      split
      · rw [hthr]
      · rfl
    unfold joinProcessMerged
    simp only [hr]
    split
    · split
      · simp
      · rfl
    · rfl

/-- Witness for C6: the recording half applied at the concrete
accumulator `c6Acc` (no threshold, no time limit) and merged label
`c6Merged`. -/
theorem halfwayCheck_characterization_and_recording_witness :
    c6Acc.st.params.threshold = none ∧ c6Acc.st.params.time_limit = none ∧
    (joinProcessMerged c6Acc c6Merged).merged = c6Acc.merged ++ [c6Merged] :=
  ⟨rfl, rfl,
    halfwayCheck_characterization_and_recording.2 c6Acc c6Merged rfl rfl⟩

/-- C1 counterexample: on the infeasible instance `c1Graph` (its only
source-sink walk consumes 10 > 1 units of the resource) run with
`direction = forward`, the engine returns the origin's trivial label:
`getPath` is `[0]` — the source vertex — not the empty list (and the
reported cost is the label's weight 0, not positive infinity). -/
theorem infeasible_run_returns_origin_label :
    (¬ ∃ w : List Edge, IsStWalk c1Graph w ∧
      ResWithinBounds (walkRes w 1) [1] [0]) ∧
    getPath c1Run = [0] ∧ getTotalCost c1Run = 0 := by
  refine ⟨?_, rfl, rfl⟩
  rintro ⟨w, ⟨hne, hmem, hchain, hhead, hlast⟩, hres⟩
  cases w with
  | nil => exact hne rfl
  | cons e ws =>
    have he : e = ⟨cV0, cV1, 7, [10]⟩ := by
      simpa [c1Graph] using hmem e (List.mem_cons_self _ _)
    cases ws with
    | nil =>
      subst he
      have h0 := hres 0 (by decide)
      have hw : walkRes [(⟨cV0, cV1, 7, [10]⟩ : Edge)] 1 = [10] := by decide
      rw [hw] at h0
      exact absurd h0.2 (by decide)
    | cons e2 ws2 =>
      have he2 : e2 = ⟨cV0, cV1, 7, [10]⟩ := by
        simpa [c1Graph] using hmem e2 (by simp)
      have h12 : e.head = e2.tail := hchain.1
      rw [he, he2] at h12
      exact absurd h12 (by decide)

/-- C1 (amended): in both-directions mode (no early termination), when
every merged candidate the join could build — any forward bucket label,
any backward bucket label, any arc — is rejected by the sentinel or
hard-feasibility guard (as on an infeasible instance), the join adopts
nothing and the getters report the initialisation sentinel: empty path,
total cost 0 (the default label's weight — not positive infinity), and
empty consumed resources. -/
theorem join_rejects_all_getters_sentinel (st : BDState)
    (hdir : st.params.direction = Dir.BOTH)
    (hearly : st.terminated_early_w_st_path = false)
    (hbest : st.best_label = Label.empty)
    (hmerge : ∀ f ∈ st.fwd.efficient_labels.flatten,
      ∀ b ∈ st.bwd.efficient_labels.flatten,
        ∀ e ∈ st.graph.edges, MergeRejected st f b e) :
    getPath (postProcessing st) = [] ∧
    getTotalCost (postProcessing st) = 0 ∧
    getConsumedResources (postProcessing st) = [] := by
  have hpp : postProcessing st = joinLabels st := by
    unfold postProcessing
    rw [if_pos (by simp [hearly]), if_pos hdir]
  rw [hpp, joinLabels_eq_of_rejected st hmerge]
  simp [getPath, getTotalCost, getConsumedResources, hbest, Label.empty]

/-- Witness for C1: the both-directions initial state on the infeasible
instance satisfies the hypotheses (the single candidate merge is
hard-infeasible), and the getters report the sentinel values. -/
theorem join_rejects_all_getters_sentinel_witness :
    c1BothInit.params.direction = Dir.BOTH ∧
    c1BothInit.terminated_early_w_st_path = false ∧
    c1BothInit.best_label = Label.empty ∧
    (∀ f ∈ c1BothInit.fwd.efficient_labels.flatten,
      ∀ b ∈ c1BothInit.bwd.efficient_labels.flatten,
        ∀ e ∈ c1BothInit.graph.edges, MergeRejected c1BothInit f b e) ∧
    (getPath (postProcessing c1BothInit) = [] ∧
      getTotalCost (postProcessing c1BothInit) = 0 ∧
      getConsumedResources (postProcessing c1BothInit) = []) :=
  ⟨rfl, rfl, by decide, by decide,
    join_rejects_all_getters_sentinel c1BothInit rfl rfl (by decide)
      (by decide)⟩

end Cspy
